import Mathlib

/-!
Verification of the SceneExtractor scene-change detector.

A shallow embedding of `src/SceneExtractor.py`.  The two functions under
study are `calculate_similarities_parallel` (frame sampling with a one-second
debounce followed by consecutive-frame cosine similarities) and
`detect_scene_changes` (the dual mean/percentile threshold segmenter).

Modelling conventions:
* timestamps and the numeric parameters `alpha`, `frame_per_minute` are
  rationals (exact models of the Python floats);
* embedding vectors and similarity scores are real numbers, because cosine
  similarity and the standard deviation involve square roots;
* a Python exception (`AssertionError`, the numpy `ValueError`) is modelled by
  `Except.error` carrying the message;
* `OrderedDict` + `sorted` in `calculate_similarities_parallel` is modelled by
  a plain list of key/value pairs: the sampled timestamps are strictly
  increasing (a consequence of `sampleAux_pairwise` and `sampleAux_mem_ge`
  below), so insertion never
  overwrites a key and `sorted` is the identity on the insertion order.
-/

open List Real

open scoped Classical

/-- Python `int(x)` applied to a float: truncation toward zero. -/
def truncToZero (q : ℚ) : ℤ := if 0 ≤ q then ⌊q⌋ else ⌈q⌉

/-- Python 3 `round` on a number with no explicit digit count:
round-half-to-even rounding. -/
def pyRound (x : ℚ) : ℤ :=
  let f := ⌊x⌋
  let r := x - f
  if r < 1/2 then f
  else if 1/2 < r then f + 1
  else if f % 2 = 0 then f else f + 1

/-- The frame-sampling debounce loop of `calculate_similarities_parallel`
(lines 63-77): `last_processed_timestamp` starts at `-1.0`; a frame is kept
exactly when `timestamp - last_processed_timestamp >= 1.0`, and a kept frame
updates `last_processed_timestamp` to its (un-truncated) timestamp. -/
def sampleFramesAux {α : Type} (last : ℚ) : List (ℚ × α) → List (ℚ × α)
  | [] => []
  | (t, f) :: rest =>
    if 1 ≤ t - last then (t, f) :: sampleFramesAux t rest
    else sampleFramesAux last rest

/-- Sum of squares of a (flattened) feature vector; `‖v‖² `. -/
def sumSq (l : List ℝ) : ℝ := (l.map (fun x => x ^ 2)).sum

/-- Dot product of two flattened feature vectors. -/
def dotList (a b : List ℝ) : ℝ := (List.zipWith (fun x y => x * y) a b).sum

/-- Model of `torch.nn.functional.cosine_similarity(a, b, dim=0)` on one-dimensional
vectors, with the documented default `eps = 1e-8`:
`dot(a,b) / max(‖a‖·‖b‖, eps)`.  In particular a zero-norm argument makes the
denominator `eps`, so the result is a plain number (0 when a vector is zero),
not an error. -/
noncomputable def cosine_similarity (a b : List ℝ) : ℝ :=
  dotList a b / max (Real.sqrt (sumSq a) * Real.sqrt (sumSq b)) (1 / 100000000)

/-- The similarity-accumulation loop of `calculate_similarities_parallel`
(lines 82-98), after the first sampled frame: each entry `(k, f)` contributes
`(k, cosine_similarity f prev)` where `prev` is the feature vector of the
previous entry.  The `reshape(-1)` flattening of the Python code is the identity here
because feature vectors are already one-dimensional lists. -/
noncomputable def simsAux (prev : List ℝ) : List (ℤ × List ℝ) → List (ℤ × ℝ)
  | [] => []
  | (k, f) :: rest => (k, cosine_similarity f prev) :: simsAux f rest

/-- The similarity-accumulation loop from its start: `last_features` is `None`
for the first entry, which therefore contributes no similarity. -/
noncomputable def simsOfSampled : List (ℤ × List ℝ) → List (ℤ × ℝ)
  | [] => []
  | (_, f) :: rest => simsAux f rest

/-- Model of `calculate_similarities_parallel` (lines 48-100): sample the frames with
the one-second debounce, key each kept frame by `int(timestamp)` (truncation
toward zero), then emit the consecutive cosine similarities. -/
noncomputable def calculate_similarities_parallel
    (frames : List (ℚ × List ℝ)) : List (ℤ × ℝ) :=
  simsOfSampled ((sampleFramesAux (-1) frames).map (fun p => (truncToZero p.1, p.2)))

/-- Model of `np.mean` on a list of scores. -/
noncomputable def np_mean (l : List ℝ) : ℝ := l.sum / l.length

/-- The square of `np.std`: the population variance (mean of the squared
deviations from the mean, denominator `n`, not `n - 1`). -/
noncomputable def np_var (l : List ℝ) : ℝ := ((l.map (fun x => (x - np_mean l) ^ 2)).sum) / l.length

/-- The scene-change threshold of `detect_scene_changes` (line 140):
`mean_sim - alpha * std_sim` with `std_sim = np.std(similarity_scores)`. -/
noncomputable def thresholdOf (scores : List ℝ) (alpha : ℚ) : ℝ :=
  np_mean scores - (alpha : ℝ) * Real.sqrt (np_var scores)

/-- Insertion into an ascending sorted list (helper for the sorted order of
the scores that `np.percentile` works on). -/
noncomputable def insertSorted (x : ℝ) : List ℝ → List ℝ
  | [] => [x]
  | y :: ys => if x ≤ y then x :: y :: ys else y :: insertSorted x ys

/-- The scores in ascending order, as `np.percentile` ranks them. -/
noncomputable def sortScores (l : List ℝ) : List ℝ := l.foldr insertSorted []

/-- The value of `np.percentile(scores, q)` for an in-range integer `q`:
virtual position `q/100 * (n-1)` into the sorted scores, with linear
interpolation between the two neighbouring order statistics. -/
noncomputable def percentileValue (scores : List ℝ) (q : ℤ) : ℝ :=
  let s := sortScores scores
  let n := s.length
  let pos : ℚ := (q : ℚ) * ((n : ℚ) - 1) / 100
  let lo := s.getD (⌊pos⌋.toNat) 0
  let hi := s.getD (min (⌊pos⌋.toNat + 1) (n - 1)) 0
  lo + ((pos - (⌊pos⌋ : ℚ) : ℚ) : ℝ) * (hi - lo)

/-- Model of `np.percentile(scores, q)` for an integer rank `q`: numpy validates the
rank first and raises `ValueError: Percentiles must be in the range [0, 100]`
when it falls outside that interval. -/
noncomputable def percentile_np (scores : List ℝ) (q : ℤ) : Except String ℝ :=
  if 0 ≤ q ∧ q ≤ 100 then Except.ok (percentileValue scores q)
  else Except.error "Percentiles must be in the range [0, 100]"

/-- The selection loop of `detect_scene_changes` (lines 145-153):
`if sim <= threshold: append` / `elif sim <= percentile: append`. -/
noncomputable def sceneLoop (threshold pct : ℝ) : List (ℤ × ℝ) → List ℤ
  | [] => []
  | (t, s) :: rest =>
    if s ≤ threshold then t :: sceneLoop threshold pct rest
    else if s ≤ pct then t :: sceneLoop threshold pct rest
    else sceneLoop threshold pct rest

/-- Lines 133-154 of `detect_scene_changes`, as a function of the similarity
sequence it computed: the two emptiness assertions, the threshold, the
percentile rank `round(1 / 60 * 100 * frame_per_minute)` fed to
`np.percentile`, and the selection loop. -/
noncomputable def detect_from_sims (sims : List (ℤ × ℝ)) (alpha fpm : ℚ) :
    Except String (List ℤ) :=
  if sims = [] then Except.error "similarities is empty"
  else if sims.map Prod.snd = [] then Except.error "similarity_scores is empty"
  else
    match percentile_np (sims.map Prod.snd) (pyRound (1/60 * 100 * fpm)) with
    | Except.error e => Except.error e
    | Except.ok pc => Except.ok (sceneLoop (thresholdOf (sims.map Prod.snd) alpha) pc sims)

/-- Model of `detect_scene_changes` (lines 103-154) on a decoded frame source. -/
noncomputable def detect_scene_changes (frames : List (ℚ × List ℝ)) (alpha fpm : ℚ) :
    Except String (List ℤ) :=
  detect_from_sims (calculate_similarities_parallel frames) alpha fpm

/-- The timestamps selected by the first (`sim <= threshold`) branch of the
selection loop of `detect_scene_changes` alone. -/
noncomputable def meanSelected (sims : List (ℤ × ℝ)) (alpha : ℚ) : List ℤ :=
  sims.filterMap (fun p =>
    if p.2 ≤ thresholdOf (sims.map Prod.snd) alpha then some p.1 else none)

/-! ## Helper lemmas -/

lemma sceneLoop_eq_filterMap (th pc : ℝ) (l : List (ℤ × ℝ)) :
    sceneLoop th pc l
      = l.filterMap (fun p =>
          if p.2 ≤ th ∨ (th < p.2 ∧ p.2 ≤ pc) then some p.1 else none) := by
  induction l with
  | nil => simp [sceneLoop]
  | cons hd tl ih =>
    obtain ⟨t, s⟩ := hd
    by_cases h1 : s ≤ th
    · simp [sceneLoop, h1, ih, List.filterMap_cons]
    · by_cases h2 : s ≤ pc
      · simp [sceneLoop, h1, h2, ih, List.filterMap_cons, lt_of_not_le h1]
      · simp [sceneLoop, h1, h2, ih, List.filterMap_cons]

lemma sampleAux_mem_ge {α : Type} (frames : List (ℚ × α)) :
    ∀ (last : ℚ) (p : ℚ × α), p ∈ sampleFramesAux last frames → last + 1 ≤ p.1 := by
  induction frames with
  | nil => intro last p hp; simp [sampleFramesAux] at hp
  | cons hd tl ih =>
    intro last p hp
    obtain ⟨t, f⟩ := hd
    by_cases h : 1 ≤ t - last
    · rw [sampleFramesAux, if_pos h] at hp
      rcases List.mem_cons.mp hp with rfl | hp2
      · simp only; linarith
      · have := ih t p hp2; linarith
    · rw [sampleFramesAux, if_neg h] at hp
      exact ih last p hp

lemma sampleAux_pairwise {α : Type} (frames : List (ℚ × α)) :
    ∀ last : ℚ, List.Pairwise (fun a b : ℚ => 1 ≤ b - a)
      ((sampleFramesAux last frames).map Prod.fst) := by
  induction frames with
  | nil => intro last; simp [sampleFramesAux]
  | cons hd tl ih =>
    intro last
    obtain ⟨t, f⟩ := hd
    by_cases h : 1 ≤ t - last
    · rw [sampleFramesAux, if_pos h]
      simp only [List.map_cons, List.pairwise_cons]
      constructor
      · intro b hb
        simp only [List.mem_map] at hb
        obtain ⟨p, hp, rfl⟩ := hb
        have := sampleAux_mem_ge tl t p hp
        linarith
      · exact ih t
    · rw [sampleFramesAux, if_neg h]
      exact ih last

lemma simsAux_keys (l : List (ℤ × List ℝ)) :
    ∀ prev, (simsAux prev l).map Prod.fst = l.map Prod.fst := by
  induction l with
  | nil => intro prev; simp [simsAux]
  | cons hd tl ih =>
    intro prev
    obtain ⟨k, f⟩ := hd
    simp [simsAux, ih]

lemma simsOf_keys (l : List (ℤ × List ℝ)) :
    (simsOfSampled l).map Prod.fst = (l.map Prod.fst).tail := by
  cases l with
  | nil => simp [simsOfSampled]
  | cons hd tl =>
    obtain ⟨k, f⟩ := hd
    simp [simsOfSampled, simsAux_keys]

lemma simsAux_length (l : List (ℤ × List ℝ)) :
    ∀ prev, (simsAux prev l).length = l.length := by
  induction l with
  | nil => intro prev; simp [simsAux]
  | cons hd tl ih =>
    intro prev
    obtain ⟨k, f⟩ := hd
    simp [simsAux, ih]

lemma simsOf_length (l : List (ℤ × List ℝ)) :
    (simsOfSampled l).length = l.length - 1 := by
  cases l with
  | nil => simp [simsOfSampled]
  | cons hd tl =>
    obtain ⟨k, f⟩ := hd
    simp [simsOfSampled, simsAux_length]

lemma sum_of_all_eq (l : List ℝ) (s : ℝ) (h : ∀ x ∈ l, x = s) :
    l.sum = l.length * s := by
  induction l with
  | nil => simp
  | cons hd tl ih =>
    have hhd : hd = s := h hd (List.mem_cons_self hd tl)
    have htl : ∀ x ∈ tl, x = s := fun x hx => h x (List.mem_cons_of_mem hd hx)
    simp [hhd, ih htl]
    ring

lemma np_mean_const (l : List ℝ) (s : ℝ) (hne : l ≠ []) (h : ∀ x ∈ l, x = s) :
    np_mean l = s := by
  have hlen : (l.length : ℝ) ≠ 0 := by
    simp [List.length_eq_zero]
    exact hne
  rw [np_mean, sum_of_all_eq l s h, mul_comm, mul_div_assoc, div_self hlen, mul_one]

lemma sumSq_nonneg (l : List ℝ) : 0 ≤ sumSq l := by
  induction l with
  | nil => simp [sumSq]
  | cons hd tl ih =>
    simp only [sumSq, List.map_cons, List.sum_cons] at *
    nlinarith [sq_nonneg hd]

lemma sumSq_eq_zero (l : List ℝ) (h : sumSq l = 0) : ∀ x ∈ l, x = 0 := by
  induction l with
  | nil => simp
  | cons hd tl ih =>
    simp only [sumSq, List.map_cons, List.sum_cons] at h
    have h1 : 0 ≤ hd ^ 2 := sq_nonneg hd
    have h2 : 0 ≤ sumSq tl := sumSq_nonneg tl
    simp only [sumSq] at h2
    have hhd : hd ^ 2 = 0 := by nlinarith
    have htl : (tl.map (fun x => x ^ 2)).sum = 0 := by nlinarith
    intro x hx
    rcases List.mem_cons.mp hx with rfl | hx2
    · exact pow_eq_zero_iff (n := 2) (by norm_num) |>.mp hhd
    · exact ih htl x hx2

lemma dotList_zero_left (a b : List ℝ) (h : ∀ x ∈ a, x = 0) : dotList a b = 0 := by
  induction a generalizing b with
  | nil => simp [dotList]
  | cons hd tl ih =>
    cases b with
    | nil => simp [dotList]
    | cons hd2 tl2 =>
      have hhd : hd = 0 := h hd (List.mem_cons_self hd tl)
      have htl : ∀ x ∈ tl, x = 0 := fun x hx => h x (List.mem_cons_of_mem hd hx)
      have := ih tl2 htl
      simp only [dotList, List.zipWith_cons_cons, List.sum_cons] at *
      rw [hhd, this]
      ring

lemma dotList_zero_right (a b : List ℝ) (h : ∀ x ∈ b, x = 0) : dotList a b = 0 := by
  induction a generalizing b with
  | nil => simp [dotList]
  | cons hd tl ih =>
    cases b with
    | nil => simp [dotList]
    | cons hd2 tl2 =>
      have hhd : hd2 = 0 := h hd2 (List.mem_cons_self hd2 tl2)
      have htl : ∀ x ∈ tl2, x = 0 := fun x hx => h x (List.mem_cons_of_mem hd2 hx)
      have := ih tl2 htl
      simp only [dotList, List.zipWith_cons_cons, List.sum_cons] at *
      rw [hhd, this]
      ring

lemma insertSorted_mem (x y : ℝ) (l : List ℝ) :
    y ∈ insertSorted x l ↔ y = x ∨ y ∈ l := by
  induction l with
  | nil => simp [insertSorted]
  | cons hd tl ih =>
    by_cases h : x ≤ hd
    · simp [insertSorted, h]
    · simp [insertSorted, h, ih]
      tauto

lemma insertSorted_length (x : ℝ) (l : List ℝ) :
    (insertSorted x l).length = l.length + 1 := by
  induction l with
  | nil => simp [insertSorted]
  | cons hd tl ih =>
    by_cases h : x ≤ hd
    · simp [insertSorted, h]
    · simp [insertSorted, h, ih]

lemma sortScores_mem (l : List ℝ) (y : ℝ) : y ∈ sortScores l ↔ y ∈ l := by
  induction l with
  | nil => simp [sortScores]
  | cons hd tl ih =>
    simp only [sortScores, List.foldr_cons] at *
    rw [insertSorted_mem]
    simp [ih]

lemma sortScores_length (l : List ℝ) : (sortScores l).length = l.length := by
  induction l with
  | nil => simp [sortScores]
  | cons hd tl ih =>
    simp only [sortScores, List.foldr_cons] at *
    rw [insertSorted_length, ih]
    simp

lemma getD_of_all_eq (l : List ℝ) (s : ℝ) (h : ∀ x ∈ l, x = s) (i : ℕ)
    (hi : i < l.length) (d : ℝ) : l.getD i d = s := by
  rw [List.getD_eq_getElem l d hi]
  exact h _ (l.getElem_mem hi)

/-! ## Claims -/

/-- Claim C5: when the similarity sequence produced from the video is empty
(zero or one sampled frames), `detect_scene_changes` fails with the
`similarities is empty` assertion rather than returning any scene-change
list (in particular, never an empty one). -/
theorem c5_empty_similarities (frames : List (ℚ × List ℝ)) (alpha fpm : ℚ)
    (h : calculate_similarities_parallel frames = []) :
    detect_scene_changes frames alpha fpm = Except.error "similarities is empty"
      ∧ ∀ l : List ℤ, detect_scene_changes frames alpha fpm ≠ Except.ok l := by
  have he : detect_scene_changes frames alpha fpm
      = Except.error "similarities is empty" := by
    rw [detect_scene_changes, h, detect_from_sims, if_pos rfl]
  exact ⟨he, fun l hl => by rw [he] at hl; exact Except.noConfusion hl⟩

/-- Witness for C5 at the empty frame source. -/
theorem c5_empty_similarities_witness :
    detect_scene_changes [] 0 0 = Except.error "similarities is empty"
      ∧ ∀ l : List ℤ, detect_scene_changes [] 0 0 ≠ Except.ok l :=
  c5_empty_similarities [] 0 0 (by rfl)

/-- Claim C6: for a frame source with non-decreasing timestamps, any two
frames kept by the debounce loop of `calculate_similarities_parallel`
(`last_processed_timestamp` set to `-1.0` at the start) have timestamps at least
1.0 second apart (stated as `Pairwise`, which covers in particular each
consecutive pair). -/
theorem c6_sampling_spacing (frames : List (ℚ × List ℝ))
    (hmono : List.Chain' (fun a b : ℚ => a ≤ b) (frames.map Prod.fst)) :
    List.Pairwise (fun a b : ℚ => 1 ≤ b - a)
      ((sampleFramesAux (-1) frames).map Prod.fst) :=
  sampleAux_pairwise frames (-1)

/-- Witness for C6 on a concrete three-frame source. -/
theorem c6_sampling_spacing_witness :
    List.Pairwise (fun a b : ℚ => 1 ≤ b - a)
      ((sampleFramesAux (-1)
        [((0 : ℚ), [(1 : ℝ)]), (1/2, [1]), (3/2, [1])]).map Prod.fst) :=
  c6_sampling_spacing _ (by norm_num [List.chain'_cons])

/-- Claim C7: a run that samples `N ≥ 1` frames yields a similarity sequence
of exactly `N - 1` entries (so for `N = 1` the sequence is empty). -/
theorem c7_sequence_alignment (frames : List (ℚ × List ℝ))
    (h : 1 ≤ (sampleFramesAux (-1 : ℚ) frames).length) :
    (calculate_similarities_parallel frames).length
      = (sampleFramesAux (-1 : ℚ) frames).length - 1 := by
  rw [calculate_similarities_parallel, simsOf_length, List.length_map]

/-- Witness for C7 on a single-sampled-frame source. -/
theorem c7_sequence_alignment_witness :
    (calculate_similarities_parallel [((0 : ℚ), [(1 : ℝ)])]).length
      = (sampleFramesAux (-1 : ℚ) [((0 : ℚ), [(1 : ℝ)])]).length - 1 :=
  c7_sequence_alignment _ (by norm_num [sampleFramesAux])

/-- Claim C8: every timestamp attached to an emitted similarity point is the
timestamp of the corresponding sampled frame truncated toward zero to an
integer second (each emitted key is the truncation of the timestamp of the
matching sampled frame, the first sampled frame emitting nothing), and the emitted
sequence is strictly increasing by timestamp. -/
theorem c8_timestamp_truncation (frames : List (ℚ × List ℝ)) :
    (calculate_similarities_parallel frames).map Prod.fst
      = ((sampleFramesAux (-1 : ℚ) frames).map (fun p => truncToZero p.1)).tail
      ∧ List.Pairwise (fun a b : ℤ => a < b)
          ((calculate_similarities_parallel frames).map Prod.fst) := by
  have hkeys : (calculate_similarities_parallel frames).map Prod.fst
      = ((sampleFramesAux (-1 : ℚ) frames).map (fun p => truncToZero p.1)).tail := by
    rw [calculate_similarities_parallel, simsOf_keys, List.map_map]
    rfl
  refine ⟨hkeys, ?_⟩
  rw [hkeys]
  have hge : ∀ p ∈ sampleFramesAux (-1 : ℚ) frames, (0 : ℚ) ≤ p.1 := by
    intro p hp
    have := sampleAux_mem_ge frames (-1) p hp
    linarith
  have hpw := sampleAux_pairwise (α := List ℝ) frames (-1)
  have hmap : List.Pairwise (fun a b : ℤ => a < b)
      ((sampleFramesAux (-1 : ℚ) frames).map (fun p => truncToZero p.1)) := by
    rw [List.pairwise_map]
    rw [List.pairwise_map] at hpw
    refine hpw.imp_of_mem ?_
    intro p q hp hq hr
    have hp0 : (0 : ℚ) ≤ p.1 := hge p hp
    have hq0 : (0 : ℚ) ≤ q.1 := hge q hq
    have hq1 : p.1 + 1 ≤ q.1 := by linarith
    simp only [truncToZero, if_pos hp0, if_pos hq0]
    have : ⌊p.1 + 1⌋ ≤ ⌊q.1⌋ := Int.floor_le_floor hq1
    rw [Int.floor_add_one] at this
    omega
  exact hmap.tail

lemma sceneLoop_all_le (th pc : ℝ) (l : List (ℤ × ℝ)) (h : ∀ p ∈ l, p.2 ≤ th) :
    sceneLoop th pc l = l.map Prod.fst := by
  induction l with
  | nil => simp [sceneLoop]
  | cons hd tl ih =>
    obtain ⟨t, s⟩ := hd
    have h1 : s ≤ th := h (t, s) (List.mem_cons_self _ _)
    have h2 : ∀ p ∈ tl, p.2 ≤ th := fun p hp => h p (List.mem_cons_of_mem _ hp)
    simp [sceneLoop, h1, ih h2]

lemma filterMap_ite_all {α β : Type} (f : α → β) (c : α → Prop) (l : List α)
    (h : ∀ x ∈ l, c x) :
    l.filterMap (fun x => if c x then some (f x) else none) = l.map f := by
  induction l with
  | nil => simp
  | cons hd tl ih =>
    have h1 : c hd := h hd (List.mem_cons_self _ _)
    have h2 : ∀ x ∈ tl, c x := fun x hx => h x (List.mem_cons_of_mem _ hx)
    simp [List.filterMap_cons, h1, ih h2]

/-- Claim C1: `detect_scene_changes` selects timestamps by the dual rule:
with `threshold = mean - alpha * population_std` and `percentile_value` the
percentile of the scores at rank `round(1/60 * 100 * frame_per_minute)`, each
`(timestamp, similarity)` pair, in original input order, contributes its
timestamp exactly when `similarity ≤ threshold`, or when
`threshold < similarity` and `similarity ≤ percentile_value` — and at most
once per pair. -/
theorem c1_selection_rule (sims : List (ℤ × ℝ)) (alpha fpm : ℚ)
    (hne : sims ≠ [])
    (hq : 0 ≤ pyRound (1/60 * 100 * fpm) ∧ pyRound (1/60 * 100 * fpm) ≤ 100) :
    detect_from_sims sims alpha fpm
      = Except.ok (sims.filterMap (fun p =>
          if p.2 ≤ thresholdOf (sims.map Prod.snd) alpha
              ∨ (thresholdOf (sims.map Prod.snd) alpha < p.2
                 ∧ p.2 ≤ percentileValue (sims.map Prod.snd)
                     (pyRound (1/60 * 100 * fpm)))
          then some p.1 else none)) := by
  rw [detect_from_sims, if_neg hne, if_neg (by simpa using hne), percentile_np,
    if_pos hq]
  simp only [sceneLoop_eq_filterMap]

/-- Witness for C1 at a one-point similarity sequence. -/
theorem c1_selection_rule_witness :
    detect_from_sims [((1 : ℤ), (1 : ℝ))] 0 0
      = Except.ok ([((1 : ℤ), (1 : ℝ))].filterMap (fun p =>
          if p.2 ≤ thresholdOf ([((1 : ℤ), (1 : ℝ))].map Prod.snd) 0
              ∨ (thresholdOf ([((1 : ℤ), (1 : ℝ))].map Prod.snd) 0 < p.2
                 ∧ p.2 ≤ percentileValue ([((1 : ℤ), (1 : ℝ))].map Prod.snd)
                     (pyRound (1/60 * 100 * 0)))
          then some p.1 else none)) :=
  c1_selection_rule [((1 : ℤ), (1 : ℝ))] 0 0 (by simp) (by norm_num [pyRound])

/-- Claim C10: for a fixed similarity sequence, increasing `alpha` (within
`0 ≤ alpha1 ≤ alpha2`) can only lower the threshold `mean - alpha * std`
(population standard deviation being nonnegative), hence the set of
timestamps selected by the mean-threshold condition at `alpha2` is a subset
of the one at `alpha1`. -/
theorem c10_threshold_monotone (sims : List (ℤ × ℝ)) (a1 a2 : ℚ)
    (h0 : 0 ≤ a1) (h12 : a1 ≤ a2) :
    thresholdOf (sims.map Prod.snd) a2 ≤ thresholdOf (sims.map Prod.snd) a1
      ∧ meanSelected sims a2 ⊆ meanSelected sims a1 := by
  have hs : (0 : ℝ) ≤ Real.sqrt (np_var (sims.map Prod.snd)) := Real.sqrt_nonneg _
  have hth : thresholdOf (sims.map Prod.snd) a2 ≤ thresholdOf (sims.map Prod.snd) a1 := by
    rw [thresholdOf, thresholdOf]
    have hc : ((a1 : ℝ)) ≤ (a2 : ℝ) := by exact_mod_cast h12
    nlinarith
  refine ⟨hth, ?_⟩
  intro x hx
  rw [meanSelected, List.mem_filterMap] at hx ⊢
  obtain ⟨p, hp, hcond⟩ := hx
  refine ⟨p, hp, ?_⟩
  by_cases hle : p.2 ≤ thresholdOf (sims.map Prod.snd) a2
  · rw [if_pos hle] at hcond
    rw [if_pos (le_trans hle hth)]
    exact hcond
  · rw [if_neg hle] at hcond
    exact Option.noConfusion hcond

/-- Witness for C10 at `alpha1 = 0`, `alpha2 = 1`. -/
theorem c10_threshold_monotone_witness :
    thresholdOf ([((1 : ℤ), (1 : ℝ))].map Prod.snd) 1
        ≤ thresholdOf ([((1 : ℤ), (1 : ℝ))].map Prod.snd) 0
      ∧ meanSelected [((1 : ℤ), (1 : ℝ))] 1 ⊆ meanSelected [((1 : ℤ), (1 : ℝ))] 0 :=
  c10_threshold_monotone [((1 : ℤ), (1 : ℝ))] 0 1 (by norm_num) (by norm_num)

/-- Counterexample to claim C3: with a zero-norm first embedding, the
similarity loop still emits a numeric similarity (the eps-clamped
denominator makes it `0`), instead of failing. -/
theorem c3_counterexample :
    calculate_similarities_parallel [((0 : ℚ), [(0 : ℝ)]), (1, [1])]
      = [((1 : ℤ), (0 : ℝ))] := by
  norm_num [calculate_similarities_parallel, sampleFramesAux, truncToZero,
    simsOfSampled, simsAux, cosine_similarity, dotList, sumSq]

/-- Claim C3 as amended: when either of the two flattened embeddings has zero
norm, `cosine_similarity` does not fail; it returns the default value `0`
(the numerator vanishes and the denominator is clamped to `eps`). -/
theorem c3_zero_norm_amended (a b : List ℝ) (h : sumSq a = 0 ∨ sumSq b = 0) :
    cosine_similarity a b = 0 := by
  rw [cosine_similarity]
  rcases h with h | h
  · rw [dotList_zero_left a b (sumSq_eq_zero a h), zero_div]
  · rw [dotList_zero_right a b (sumSq_eq_zero b h), zero_div]

/-- Witness for the amended C3 at a concrete zero vector. -/
theorem c3_zero_norm_amended_witness :
    cosine_similarity [(0 : ℝ)] [(1 : ℝ)] = 0 :=
  c3_zero_norm_amended [0] [1] (Or.inl (by norm_num [sumSq]))

/-- Counterexample to claim C4: with two sampled frames and
`frame_per_minute = 120` (derived rank `round(1/60*100*120) = 200`),
`detect_scene_changes` does not clamp and return a list — the numpy range check
fails and the error propagates. -/
theorem c4_counterexample :
    detect_scene_changes [((0 : ℚ), [(1 : ℝ)]), (1, [1])] 0 120
      = Except.error "Percentiles must be in the range [0, 100]" := by
  have hs : calculate_similarities_parallel [((0 : ℚ), [(1 : ℝ)]), (1, [1])]
      = [((1 : ℤ), cosine_similarity [1] [1])] := by
    norm_num [calculate_similarities_parallel, sampleFramesAux, truncToZero,
      simsOfSampled, simsAux]
  rw [detect_scene_changes, hs, detect_from_sims, if_neg (by simp),
    if_neg (by simp), percentile_np, if_neg (by norm_num [pyRound])]

/-- Claim C4 as amended: whenever the derived percentile rank
`round(1/60 * 100 * frame_per_minute)` falls outside `[0, 100]` (and the
similarity sequence is non-empty, so control reaches the percentile call),
`detect_scene_changes` raises the numpy range error instead of clamping the
rank and returning a result list. -/
theorem c4_out_of_range_amended (frames : List (ℚ × List ℝ)) (alpha fpm : ℚ)
    (hne : calculate_similarities_parallel frames ≠ [])
    (hq : pyRound (1/60 * 100 * fpm) < 0 ∨ 100 < pyRound (1/60 * 100 * fpm)) :
    detect_scene_changes frames alpha fpm
      = Except.error "Percentiles must be in the range [0, 100]" := by
  rw [detect_scene_changes, detect_from_sims, if_neg hne,
    if_neg (by simpa using hne), percentile_np, if_neg (by omega)]

/-- Witness for the amended C4 at `frame_per_minute = 120`. -/
theorem c4_out_of_range_amended_witness :
    detect_scene_changes [((0 : ℚ), [(2 : ℝ)]), (1, [2])] 0 120
      = Except.error "Percentiles must be in the range [0, 100]" :=
  c4_out_of_range_amended [((0 : ℚ), [(2 : ℝ)]), (1, [2])] 0 120
    (by norm_num [calculate_similarities_parallel, sampleFramesAux, truncToZero,
      simsOfSampled, simsAux])
    (Or.inr (by norm_num [pyRound]))

/-- Counterexample to claim C9: on the constant similarity sequence
`[(1, 1), (2, 1)]` with `alpha = 0` the mean-threshold branch selects every
timestamp (the threshold equals the constant score and the comparison is
non-strict), not none of them. -/
theorem c9_counterexample :
    meanSelected [((1 : ℤ), (1 : ℝ)), (2, 1)] 0 = [1, 2] := by
  norm_num [meanSelected, thresholdOf, np_mean, np_var, List.filterMap_cons,
    Real.sqrt_zero]

/-- Claim C9 as amended: when every similarity score equals `s` and
`alpha = 0` and `frame_per_minute = 0`, the threshold `mean - 0 * std` equals
`s`, so the mean-threshold condition `sim ≤ threshold` holds at every point
and the mean branch selects every timestamp (rather than none); the
percentile condition `sim ≤ percentile_value` also holds at every point, and
the selection output is the whole timestamp list. -/
theorem c9_constant_scores_amended (sims : List (ℤ × ℝ)) (s : ℝ)
    (hne : sims ≠ []) (hall : ∀ p ∈ sims, p.2 = s) :
    detect_from_sims sims 0 0 = Except.ok (sims.map Prod.fst)
      ∧ (∀ p ∈ sims, p.2 ≤ thresholdOf (sims.map Prod.snd) 0)
      ∧ (∀ p ∈ sims,
          p.2 ≤ percentileValue (sims.map Prod.snd) (pyRound (1/60 * 100 * 0)))
      ∧ meanSelected sims 0 = sims.map Prod.fst := by
  have hscores : ∀ x ∈ sims.map Prod.snd, x = s := by
    intro x hx
    obtain ⟨p, hp, rfl⟩ := List.mem_map.mp hx
    exact hall p hp
  have hsne : sims.map Prod.snd ≠ [] := by simpa using hne
  have hmean : np_mean (sims.map Prod.snd) = s := np_mean_const _ s hsne hscores
  have hth : thresholdOf (sims.map Prod.snd) 0 = s := by
    rw [thresholdOf, hmean]
    norm_num
  have hrank : pyRound (1/60 * 100 * 0) = 0 := by norm_num [pyRound]
  have hsortne : sortScores (sims.map Prod.snd) ≠ [] := by
    intro hcon
    have := sortScores_length (sims.map Prod.snd)
    rw [hcon] at this
    simp only [List.length_nil] at this
    exact hsne (List.length_eq_zero.mp this.symm)
  have hsortall : ∀ x ∈ sortScores (sims.map Prod.snd), x = s := by
    intro x hx
    exact hscores x ((sortScores_mem _ x).mp hx)
  have hpv : percentileValue (sims.map Prod.snd) 0 = s := by
    rw [percentileValue]
    have hlen : 0 < (sortScores (sims.map Prod.snd)).length :=
      List.length_pos.mpr hsortne
    simp only [Int.cast_zero, zero_mul, zero_div, Int.floor_zero, Int.toNat_zero,
      Rat.cast_zero, sub_zero, Rat.cast_sub]
    rw [getD_of_all_eq _ s hsortall 0 hlen]
    norm_num
  have hle : ∀ p ∈ sims, p.2 ≤ thresholdOf (sims.map Prod.snd) 0 := by
    intro p hp
    rw [hth, hall p hp]
  refine ⟨?_, hle, ?_, ?_⟩
  · rw [detect_from_sims, if_neg hne, if_neg hsne, percentile_np, hrank,
      if_pos (by norm_num)]
    simp only [sceneLoop_all_le _ _ _ hle]
  · intro p hp
    rw [hrank, hpv, hall p hp]
  · rw [meanSelected]
    exact filterMap_ite_all Prod.fst _ sims hle

/-- Witness for the amended C9 at a concrete constant sequence. -/
theorem c9_constant_scores_amended_witness :
    detect_from_sims [((1 : ℤ), (1 : ℝ))] 0 0
        = Except.ok ([((1 : ℤ), (1 : ℝ))].map Prod.fst)
      ∧ (∀ p ∈ [((1 : ℤ), (1 : ℝ))],
          p.2 ≤ thresholdOf ([((1 : ℤ), (1 : ℝ))].map Prod.snd) 0)
      ∧ (∀ p ∈ [((1 : ℤ), (1 : ℝ))],
          p.2 ≤ percentileValue ([((1 : ℤ), (1 : ℝ))].map Prod.snd)
            (pyRound (1/60 * 100 * 0)))
      ∧ meanSelected [((1 : ℤ), (1 : ℝ))] 0 = [((1 : ℤ), (1 : ℝ))].map Prod.fst :=
  c9_constant_scores_amended [((1 : ℤ), (1 : ℝ))] 1 (by simp) (by simp)

/-- Claim C2: on the similarity sequence
`[(1, 0.95), (2, 0.10), (3, 0.92), (4, 0.93)]` with `alpha = 1` and
`frame_per_minute = 0`, the threshold/percentile selection of
`detect_scene_changes` returns exactly `[2]`. -/
theorem c2_end_to_end :
    detect_from_sims [((1 : ℤ), (0.95 : ℝ)), (2, 0.10), (3, 0.92), (4, 0.93)] 1 0
      = Except.ok [2] := by
  have hmap : ([((1 : ℤ), (0.95 : ℝ)), (2, 0.10), (3, 0.92), (4, 0.93)].map Prod.snd)
      = [(0.95 : ℝ), 0.10, 0.92, 0.93] := by norm_num
  have hm : np_mean [(0.95 : ℝ), 0.10, 0.92, 0.93] = 0.725 := by
    norm_num [np_mean]
  have hv : np_var [(0.95 : ℝ), 0.10, 0.92, 0.93] = 0.130325 := by
    norm_num [np_var, np_mean]
  have hsq : Real.sqrt (0.130325 : ℝ) ≤ 0.625 := by
    nlinarith [Real.sq_sqrt (show (0 : ℝ) ≤ 0.130325 by norm_num),
      Real.sqrt_nonneg (0.130325 : ℝ)]
  have hth_lb : (0.10 : ℝ) ≤ thresholdOf [(0.95 : ℝ), 0.10, 0.92, 0.93] 1 := by
    rw [thresholdOf, hm, hv]
    push_cast
    linarith [hsq]
  have hth_ub : thresholdOf [(0.95 : ℝ), 0.10, 0.92, 0.93] 1 ≤ 0.725 := by
    rw [thresholdOf, hm]
    have hnn := Real.sqrt_nonneg (np_var [(0.95 : ℝ), 0.10, 0.92, 0.93])
    push_cast
    linarith
  have hrank : pyRound (1/60 * 100 * 0) = 0 := by norm_num [pyRound]
  have hsort : sortScores [(0.95 : ℝ), 0.10, 0.92, 0.93] = [0.10, 0.92, 0.93, 0.95] := by
    norm_num [sortScores, insertSorted]
  have hpv : percentileValue [(0.95 : ℝ), 0.10, 0.92, 0.93] 0 = 0.10 := by
    simp only [percentileValue, hsort]
    norm_num
  have h95 : ¬((0.95 : ℝ) ≤ thresholdOf [(0.95 : ℝ), 0.10, 0.92, 0.93] 1) := by
    intro hcon; linarith
  have h92 : ¬((0.92 : ℝ) ≤ thresholdOf [(0.95 : ℝ), 0.10, 0.92, 0.93] 1) := by
    intro hcon; linarith
  have h93 : ¬((0.93 : ℝ) ≤ thresholdOf [(0.95 : ℝ), 0.10, 0.92, 0.93] 1) := by
    intro hcon; linarith
  rw [detect_from_sims, if_neg (by simp), if_neg (by simp), hmap, percentile_np,
    hrank, if_pos (by norm_num), hpv]
  show Except.ok (sceneLoop (thresholdOf [(0.95 : ℝ), 0.10, 0.92, 0.93] 1) 0.10
      [((1 : ℤ), (0.95 : ℝ)), (2, 0.10), (3, 0.92), (4, 0.93)]) = Except.ok [2]
  simp only [sceneLoop]
  rw [if_neg h95, if_neg (show ¬((0.95 : ℝ) ≤ 0.10) by norm_num), if_pos hth_lb,
    if_neg h92, if_neg (show ¬((0.92 : ℝ) ≤ 0.10) by norm_num),
    if_neg h93, if_neg (show ¬((0.93 : ℝ) ≤ 0.10) by norm_num)]
